import Mathlib

/-!
Verification of the `PrecisionTime` timing subsystem of the EdgePowerMeter
firmware (`src/firmware/PrecisionTime.cpp`, `PrecisionTime.h`).

The development shallowly embeds the C++ code:
* `DateTime` models the RTClib calendar value consumed by the firmware
  (fields, `unixtime()`, the `DateTime(uint32_t)` decomposing constructor and
  `operator+(TimeSpan)`), with 32-bit unsigned arithmetic rendered as
  `Nat` computations modulo `2^32 = 4294967296`.
* `PrecisionTime` is the member-variable state of the C++ class; each member
  function becomes a pure Lean function over that state.  Functions that may
  touch the RTC bus additionally return the number of `_rtc.now()` calls they
  perform, and take the value such a read would produce as a parameter.
-/

set_option maxHeartbeats 1600000

/-- Seconds between 1970-01-01 and 2000-01-01, as hardcoded in RTClib. -/
def SECONDS_FROM_1970_TO_2000 : Nat := 946684800

/-- RTClib's `daysInMonth` table: January through November (December is
implied by fall-through in the `DateTime(uint32_t)` constructor loop). -/
def daysInMonth : List Nat := [31, 28, 31, 30, 31, 30, 31, 31, 30, 31, 30]

/-- RTClib `date2days`: days since 2000-01-01 of a given date.  `yOff` is the
year offset from 2000.  The loop `for (i = 1; i < m; ++i) days += table[i-1]`
is the sum of the first `m - 1` table entries. -/
def date2days (yOff m d : Nat) : Nat :=
  d + (daysInMonth.take (m - 1)).sum
    + (if 2 < m ∧ yOff % 4 = 0 then 1 else 0)
    + 365 * yOff + (yOff + 3) / 4 - 1

/-- RTClib `time2long`: seconds corresponding to whole days plus h/m/s. -/
def time2long (days hh mm ss : Nat) : Nat :=
  ((days * 24 + hh) * 60 + mm) * 60 + ss

/-- The RTClib `DateTime` value as stored: year offset from 2000, month,
day, hour, minute, second. -/
structure DateTime where
  yOff : Nat
  m : Nat
  d : Nat
  hh : Nat
  mm : Nat
  ss : Nat
deriving DecidableEq, Repr

/-- RTClib `DateTime::unixtime()`: epoch seconds of the stored fields. -/
def DateTime.unixtime (dt : DateTime) : Nat :=
  time2long (date2days dt.yOff dt.m dt.d) dt.hh dt.mm dt.ss
    + SECONDS_FROM_1970_TO_2000

/-- The year loop of the RTClib `DateTime(uint32_t)` constructor:
repeatedly subtract `365 + leap` days, incrementing the year offset.  The
C loop is bounded by the data (each step removes at least 365 days); the
explicit fuel argument makes the same iteration structurally recursive,
and callers pass fuel that provably suffices. -/
def yearSplitF : Nat → Nat → Nat → Nat × Nat
  | 0, y, days => (y, days)
  | fuel + 1, y, days =>
    if days < 365 + (if y % 4 = 0 then 1 else 0) then (y, days)
    else yearSplitF fuel (y + 1) (days - (365 + (if y % 4 = 0 then 1 else 0)))

/-- The month loop of the RTClib constructor: subtract month lengths from the
day-of-year until it fits; running off the table end leaves month 12
(December), exactly like the C loop's fall-through. -/
def monthSplitF : List Nat → Nat → Nat → Nat × Nat
  | [], m, days => (m, days)
  | len :: rest, m, days =>
    if days < len then (m, days) else monthSplitF rest (m + 1) (days - len)

/-- Month lengths seen by the constructor loop: the `daysInMonth` table with
February extended in leap years (`if (leap && m == 2) ++daysPerMonth`). -/
def monthLengths (leap : Bool) : List Nat :=
  [31, if leap then 29 else 28, 31, 30, 31, 30, 31, 31, 30, 31, 30]

/-- RTClib `DateTime(uint32_t t)`: `t -= SECONDS_FROM_1970_TO_2000` in
unsigned 32-bit arithmetic, then peel seconds, minutes, hours, then split
days into year/month/day with the every-fourth-year leap rule. -/
def DateTime.fromUnix (u : Nat) : DateTime :=
  let t := (u % 4294967296 + 4294967296 - SECONDS_FROM_1970_TO_2000) % 4294967296
  let ss := t % 60
  let t1 := t / 60
  let mm := t1 % 60
  let t2 := t1 / 60
  let hh := t2 % 24
  let days := t2 / 24
  let yr := yearSplitF (days / 365 + 1) 0 days
  let mo := monthSplitF (monthLengths (yr.1 % 4 == 0)) 1 yr.2
  ⟨yr.1, mo.1, mo.2 + 1, hh, mm, ss⟩

/-- RTClib `DateTime + TimeSpan(seconds)`: rebuilt from
`unixtime() + seconds` in unsigned 32-bit arithmetic. -/
def DateTime.addSeconds (dt : DateTime) (k : Nat) : DateTime :=
  DateTime.fromUnix ((dt.unixtime + k) % 4294967296)

/-- Zero-padded decimal rendering, the semantics of `snprintf`'s `%0wd`
for nonnegative values. -/
def pad (w n : Nat) : String :=
  String.join (List.replicate (w - (Nat.repr n).length) "0") ++ Nat.repr n

/-- The `"%04d-%02d-%02d %02d:%02d:%02d"` date/time portion of the firmware's
timestamp format; `year()` is `2000 + yOff` in RTClib. -/
def fmtDate (dt : DateTime) : String :=
  pad 4 (2000 + dt.yOff) ++ "-" ++ pad 2 dt.m ++ "-" ++ pad 2 dt.d ++ " " ++
  pad 2 dt.hh ++ ":" ++ pad 2 dt.mm ++ ":" ++ pad 2 dt.ss

example : DateTime.fromUnix 946684800 = ⟨0, 1, 1, 0, 0, 0⟩ := by decide
example : DateTime.fromUnix 946684810 = ⟨0, 1, 1, 0, 0, 10⟩ := by decide
example : (DateTime.fromUnix 1709180000).unixtime = 1709180000 := by decide
example : DateTime.addSeconds ⟨24, 3, 15, 23, 59, 59⟩ 1 = ⟨24, 3, 16, 0, 0, 0⟩ := by decide
example : fmtDate ⟨24, 3, 5, 7, 8, 9⟩ = "2024-03-05 07:08:09" := by decide

/-- The member-variable state of the C++ `PrecisionTime` class
(`PrecisionTime.h`): `_syncPending`, `_syncMillis` (the ISR-written pair),
`_syncedTime`, `_lastSyncMillis` (the clock reference), `_initialized`,
`_usingSqw` (the mode), `_lastSecond` (polling rollover detector). -/
structure PrecisionTime where
  syncPending : Bool
  syncMillis : Nat
  syncedTime : DateTime
  lastSyncMillis : Nat
  initialized : Bool
  usingSqw : Bool
  lastSecond : Nat
deriving DecidableEq, Repr

/-- The constructor's initializer list; RTClib's default `DateTime` is
2000-01-01 00:00:00, and `_lastSecond` starts at 255. -/
def PrecisionTime.initialState : PrecisionTime :=
  ⟨false, 0, ⟨0, 1, 1, 0, 0, 0⟩, 0, false, false, 255⟩

/-- `isUsingSqw()` accessor (the spec's `isUsingInterruptMode`). -/
def PrecisionTime.isUsingSqw (s : PrecisionTime) : Bool := s.usingSqw

/-- `isInitialized()` accessor. -/
def PrecisionTime.isInitialized (s : PrecisionTime) : Bool := s.initialized

/-- The ISR `_onSqwPulse`: records `millis()` (`tick`, a 32-bit value) into
`_syncMillis` and raises `_syncPending`.  Touches nothing else. -/
def PrecisionTime.onSqwPulse (s : PrecisionTime) (tick : Nat) : PrecisionTime :=
  { s with syncMillis := tick % 4294967296, syncPending := true }

/-- `PrecisionTime::update()`.  `tick` is the value `millis()` would return
and `rtcNow` the value an `_rtc.now()` call would produce; the second
component counts how many `_rtc.now()` calls the execution performs. -/
def PrecisionTime.update (s : PrecisionTime) (tick : Nat) (rtcNow : DateTime) :
    PrecisionTime × Nat :=
  if s.usingSqw ∧ s.syncPending then
    ({ s with syncPending := false, syncedTime := rtcNow,
              lastSyncMillis := s.syncMillis }, 1)
  else if ¬s.usingSqw ∧ s.initialized then
    if rtcNow.ss ≠ s.lastSecond then
      ({ s with lastSecond := rtcNow.ss, syncedTime := rtcNow,
                lastSyncMillis := tick % 4294967296 }, 1)
    else (s, 1)
  else (s, 0)

/-- `PrecisionTime::getUnixMillis()`: the returned epoch-millisecond value
paired with the number of `_rtc.now()` calls performed.  `elapsed` is the
unsigned 32-bit subtraction `millis() - _lastSyncMillis`; `unixtime()`
returns `uint32_t`. -/
def PrecisionTime.getUnixMillis (s : PrecisionTime) (tick : Nat)
    (rtcNow : DateTime) : Nat × Nat :=
  if s.initialized = false then
    ((rtcNow.unixtime % 4294967296) * 1000, 1)
  else
    let elapsed := (tick % 4294967296 + 4294967296 - s.lastSyncMillis % 4294967296) % 4294967296
    let ms := elapsed % 1000
    let extraSeconds := elapsed / 1000
    let now := s.syncedTime.addSeconds extraSeconds
    ((now.unixtime % 4294967296) * 1000 + ms, 0)

/-- `PrecisionTime::getTimestamp()`: the formatted string paired with the
number of `_rtc.now()` calls performed.  The uninitialized branch formats
with the literal `".000"` suffix; the initialized branch formats the
cascaded calendar time with `".%03d"` of the sub-second remainder. -/
def PrecisionTime.getTimestamp (s : PrecisionTime) (tick : Nat)
    (rtcNow : DateTime) : String × Nat :=
  if s.initialized = false then
    (fmtDate rtcNow ++ ".000", 1)
  else
    let elapsed := (tick % 4294967296 + 4294967296 - s.lastSyncMillis % 4294967296) % 4294967296
    let ms := elapsed % 1000
    let extraSeconds := elapsed / 1000
    let now := s.syncedTime.addSeconds extraSeconds
    (fmtDate now ++ "." ++ pad 3 ms, 0)

/-- One iteration's worth of observations in the `begin()` detection loop:
the `millis()` value read in the loop guard, the `digitalRead()` level
(`true` = HIGH), and the `millis()` value the falling-edge branch would
record into `_lastSyncMillis`. -/
structure Sample where
  tGuard : Nat
  level : Bool
  tCapture : Nat
deriving DecidableEq, Repr

/-- The polling-fallback tail of `begin()`: one `_rtc.now()` read, anchor
`_lastSyncMillis` to the current `millis()`, seed `_lastSecond`, mark
initialized in polling mode. -/
def PrecisionTime.fallbackCommit (rtcNow : DateTime) (tFallback : Nat)
    (s : PrecisionTime) : PrecisionTime :=
  { s with syncedTime := rtcNow, lastSyncMillis := tFallback % 4294967296,
           lastSecond := rtcNow.ss, initialized := true, usingSqw := false }

/-- The `while (millis() < timeout && transitionCount < 2)` detection loop of
`begin()`.  Each list element is one iteration's observations; an exhausted
list stands for the tick counter having run past the deadline (the counter is
free-running, so the loop guard eventually fails), which takes the same
fallback path as an in-list guard failure. -/
def PrecisionTime.beginLoop (timeout : Nat) (rtcNow : DateTime) (tFallback : Nat) :
    List Sample → Bool → Nat → PrecisionTime → PrecisionTime × Bool
  | [], _, _, s => (PrecisionTime.fallbackCommit rtcNow tFallback s, false)
  | smp :: rest, lastState, transitionCount, s =>
    if smp.tGuard % 4294967296 < timeout ∧ transitionCount < 2 then
      if smp.level ≠ lastState then
        if lastState = true ∧ smp.level = false then
          ({ s with lastSyncMillis := smp.tCapture % 4294967296,
                    syncedTime := rtcNow, initialized := true,
                    usingSqw := true }, true)
        else
          PrecisionTime.beginLoop timeout rtcNow tFallback rest smp.level
            (transitionCount + 1) s
      else
        PrecisionTime.beginLoop timeout rtcNow tFallback rest lastState
          transitionCount s
    else (PrecisionTime.fallbackCommit rtcNow tFallback s, false)

/-- `PrecisionTime::begin()`: `startWait` is the `millis()` read before the
loop, `initLevel` the initial `digitalRead`, `samples` the per-iteration
observations, `rtcNow` the value any `_rtc.now()` read returns, `tFallback`
the `millis()` value of the fallback anchor.  Returns the new state and the
boolean result (`true` = SQW sync achieved). -/
def PrecisionTime.begin (s : PrecisionTime) (startWait : Nat) (initLevel : Bool)
    (samples : List Sample) (rtcNow : DateTime) (tFallback : Nat) :
    PrecisionTime × Bool :=
  PrecisionTime.beginLoop ((startWait % 4294967296 + 2500) % 4294967296)
    rtcNow tFallback samples initLevel 0 s

/-- Number of logic-level transitions along a pin trace starting from an
initial level. -/
def countTransitions : Bool → List Bool → Nat
  | _, [] => 0
  | prev, l :: rest => (if l ≠ prev then 1 else 0) + countTransitions l rest

/-- Whether a pin trace contains a falling (HIGH→LOW) transition. -/
def hasFalling : Bool → List Bool → Bool
  | _, [] => false
  | prev, l :: rest => (prev && !l) || hasFalling l rest

example :
    (PrecisionTime.initialState.begin 0 true [⟨10, false, 12⟩] ⟨24, 1, 1, 0, 0, 0⟩ 20).2
      = true := by decide
example :
    (PrecisionTime.initialState.begin 0 false [⟨10, false, 12⟩, ⟨11, true, 13⟩] ⟨24, 1, 1, 0, 0, 0⟩ 20).2
      = false := by decide
example :
    (PrecisionTime.initialState.begin 0 false [⟨10, true, 12⟩, ⟨11, false, 13⟩] ⟨24, 1, 1, 0, 0, 0⟩ 20).2
      = true := by decide

/-- The year loop conserves total days: the days consumed by the years
advanced plus the remainder equal the input (the consumed count for year
offset `y` being `365 * y + (y + 3) / 4`). -/
theorem yearSplitF_eq : ∀ (fuel y days : Nat),
    365 * (yearSplitF fuel y days).1 + ((yearSplitF fuel y days).1 + 3) / 4
      + (yearSplitF fuel y days).2 = 365 * y + (y + 3) / 4 + days := by
  intro fuel
  induction fuel with
  | zero => intro y days; simp [yearSplitF]
  | succ f ih =>
    intro y days
    by_cases h : days < 365 + (if y % 4 = 0 then 1 else 0)
    · simp [yearSplitF, h]
    · simp only [yearSplitF, if_neg h]
      by_cases h4 : y % 4 = 0
      · rw [if_pos h4] at h ⊢
        have hih := ih (y + 1) (days - (365 + 1))
        omega
      · rw [if_neg h4] at h ⊢
        have hdd : (y + 1 + 3) / 4 = (y + 3) / 4 := by omega
        have hih := ih (y + 1) (days - (365 + 0))
        omega

/-- The month loop conserves total days: the sum of the month lengths
consumed plus the remainder equals the input, the month index only grows,
and at most the whole table is consumed. -/
theorem monthSplitF_eq : ∀ (L : List Nat) (m days : Nat),
    (L.take ((monthSplitF L m days).1 - m)).sum + (monthSplitF L m days).2 = days
    ∧ m ≤ (monthSplitF L m days).1
    ∧ (monthSplitF L m days).1 - m ≤ L.length := by
  intro L
  induction L with
  | nil => intro m days; simp [monthSplitF]
  | cons len rest ih =>
    intro m days
    by_cases h : days < len
    · simp [monthSplitF, h]
    · simp only [monthSplitF, if_neg h]
      obtain ⟨h1, h2, h3⟩ := ih (m + 1) (days - len)
      have hk : (monthSplitF rest (m + 1) (days - len)).1 - m
          = ((monthSplitF rest (m + 1) (days - len)).1 - (m + 1)) + 1 := by omega
      rw [hk]
      simp only [List.take_succ_cons, List.sum_cons, List.length_cons]
      exact ⟨by omega, by omega, by omega⟩

/-- Consuming `k` entries of the leap-adjusted month table equals consuming
`k` entries of the plain `daysInMonth` table plus one extra day exactly when
February (index 1) was passed in a leap year — the same adjustment
`date2days` makes with its `m > 2 && y % 4 == 0` test. -/
theorem monthLengths_take (leap : Bool) : ∀ k, k < 12 →
    ((monthLengths leap).take k).sum
      = (daysInMonth.take k).sum + (if 1 < k ∧ leap = true then 1 else 0) := by
  cases leap <;> decide

/-- The constructor's year/month/day decomposition of a day count is a right
inverse of `date2days`. -/
theorem date2days_split (days : Nat) :
    date2days (yearSplitF (days / 365 + 1) 0 days).1
      (monthSplitF (monthLengths ((yearSplitF (days / 365 + 1) 0 days).1 % 4 == 0)) 1
        (yearSplitF (days / 365 + 1) 0 days).2).1
      ((monthSplitF (monthLengths ((yearSplitF (days / 365 + 1) 0 days).1 % 4 == 0)) 1
        (yearSplitF (days / 365 + 1) 0 days).2).2 + 1) = days := by
  have hy := yearSplitF_eq (days / 365 + 1) 0 days
  set y := (yearSplitF (days / 365 + 1) 0 days).1 with hydef
  set r := (yearSplitF (days / 365 + 1) 0 days).2 with hrdef
  obtain ⟨hm1, hm2, hm3⟩ := monthSplitF_eq (monthLengths (y % 4 == 0)) 1 r
  set mo := (monthSplitF (monthLengths (y % 4 == 0)) 1 r).1 with hmodef
  set r2 := (monthSplitF (monthLengths (y % 4 == 0)) 1 r).2 with hr2def
  have hlen : (monthLengths (y % 4 == 0)).length = 11 := by
    cases h : (y % 4 == 0) <;> simp [monthLengths]
  rw [hlen] at hm3
  have hbridge := monthLengths_take (y % 4 == 0) (mo - 1) (by omega)
  have hadj : (if 2 < mo ∧ y % 4 = 0 then 1 else 0)
      = (if 1 < mo - 1 ∧ (y % 4 == 0) = true then 1 else 0) := by
    have hbeq : ((y % 4 == 0) = true) ↔ y % 4 = 0 := by simp
    split_ifs with ha hb hb
    · rfl
    · exact absurd ⟨by obtain ⟨ha1, -⟩ := ha; omega, hbeq.mpr ha.2⟩ hb
    · exact absurd ⟨by obtain ⟨hb1, -⟩ := hb; omega, hbeq.mp hb.2⟩ ha
    · rfl
  unfold date2days
  rw [hadj]
  omega

/-- `unixtime` is always at least the 1970→2000 epoch offset. -/
theorem unixtime_ge (dt : DateTime) :
    SECONDS_FROM_1970_TO_2000 ≤ dt.unixtime :=
  Nat.le_add_left _ _

/-- `unixtime` of a `DateTime` assembled from the constructor's year/month/day
split of a day count, together with h/m/s fields, recovers the total
second count. -/
theorem unixtime_mk_split (days hh mm ss : Nat) :
    (DateTime.mk (yearSplitF (days / 365 + 1) 0 days).1
      (monthSplitF (monthLengths ((yearSplitF (days / 365 + 1) 0 days).1 % 4 == 0)) 1
        (yearSplitF (days / 365 + 1) 0 days).2).1
      ((monthSplitF (monthLengths ((yearSplitF (days / 365 + 1) 0 days).1 % 4 == 0)) 1
        (yearSplitF (days / 365 + 1) 0 days).2).2 + 1) hh mm ss).unixtime
    = time2long days hh mm ss + SECONDS_FROM_1970_TO_2000 := by
  simp only [DateTime.unixtime]
  rw [date2days_split]

/-- Round trip: rebuilding a `DateTime` from a 32-bit epoch-second value at
or after 2000-01-01 and reading `unixtime()` back is the identity. -/
theorem unixtime_fromUnix (u : Nat) (h1 : SECONDS_FROM_1970_TO_2000 ≤ u)
    (h2 : u < 4294967296) : (DateTime.fromUnix u).unixtime = u := by
  have hE : SECONDS_FROM_1970_TO_2000 = 946684800 := rfl
  rw [hE] at h1
  have ht : (u % 4294967296 + 4294967296 - SECONDS_FROM_1970_TO_2000) % 4294967296
      = u - 946684800 := by rw [hE]; omega
  have hfrom : DateTime.fromUnix u
      = DateTime.mk
          (yearSplitF ((u - 946684800) / 60 / 60 / 24 / 365 + 1) 0
            ((u - 946684800) / 60 / 60 / 24)).1
          (monthSplitF (monthLengths
              ((yearSplitF ((u - 946684800) / 60 / 60 / 24 / 365 + 1) 0
                ((u - 946684800) / 60 / 60 / 24)).1 % 4 == 0)) 1
            (yearSplitF ((u - 946684800) / 60 / 60 / 24 / 365 + 1) 0
              ((u - 946684800) / 60 / 60 / 24)).2).1
          ((monthSplitF (monthLengths
              ((yearSplitF ((u - 946684800) / 60 / 60 / 24 / 365 + 1) 0
                ((u - 946684800) / 60 / 60 / 24)).1 % 4 == 0)) 1
            (yearSplitF ((u - 946684800) / 60 / 60 / 24 / 365 + 1) 0
              ((u - 946684800) / 60 / 60 / 24)).2).2 + 1)
          ((u - 946684800) / 60 / 60 % 24) ((u - 946684800) / 60 % 60)
          ((u - 946684800) % 60) := by
    simp only [DateTime.fromUnix, ht]
  rw [hfrom, unixtime_mk_split]
  simp only [time2long]
  have e1 : u - 946684800 = 60 * ((u - 946684800) / 60) + (u - 946684800) % 60 :=
    (Nat.div_add_mod _ 60).symm
  have e2 : (u - 946684800) / 60
      = 60 * ((u - 946684800) / 60 / 60) + (u - 946684800) / 60 % 60 :=
    (Nat.div_add_mod _ 60).symm
  have e3 : (u - 946684800) / 60 / 60
      = 24 * ((u - 946684800) / 60 / 60 / 24) + (u - 946684800) / 60 / 60 % 24 :=
    (Nat.div_add_mod _ 24).symm
  rw [hE]
  omega

/-- Adding seconds via the RTClib `operator+` adds to `unixtime` whenever the
32-bit sum does not overflow. -/
theorem addSeconds_unixtime (dt : DateTime) (k : Nat)
    (h : dt.unixtime + k < 4294967296) :
    (dt.addSeconds k).unixtime = dt.unixtime + k := by
  unfold DateTime.addSeconds
  rw [Nat.mod_eq_of_lt h]
  exact unixtime_fromUnix _ (le_trans (unixtime_ge dt) (Nat.le_add_right _ _)) h

/-- Elapsed-time core of `getUnixMillis`: if the true tick advance since the
sync instant is `d < 2^32`, the unsigned 32-bit subtraction recovers `d`
(also across tick-counter wraparound) and the result is the base wall time
advanced by `d / 1000` seconds, plus `d % 1000` milliseconds. -/
theorem getUnixMillis_elapsed (s : PrecisionTime) (d : Nat) (r : DateTime)
    (hinit : s.initialized = true) (hd : d < 4294967296)
    (hov : s.syncedTime.unixtime + d / 1000 < 4294967296) :
    (s.getUnixMillis ((s.lastSyncMillis + d) % 4294967296) r).1
      = (s.syncedTime.unixtime + d / 1000) * 1000 + d % 1000 := by
  simp only [PrecisionTime.getUnixMillis, hinit]
  have helapsed : ((s.lastSyncMillis + d) % 4294967296 % 4294967296 + 4294967296
      - s.lastSyncMillis % 4294967296) % 4294967296 = d := by omega
  simp only [helapsed, Bool.true_eq_false, if_false]
  rw [addSeconds_unixtime _ _ hov, Nat.mod_eq_of_lt hov]

/-- Elapsed-time core of `getTimestamp`, same assumptions. -/
theorem getTimestamp_elapsed (s : PrecisionTime) (d : Nat) (r : DateTime)
    (hinit : s.initialized = true) (hd : d < 4294967296) :
    (s.getTimestamp ((s.lastSyncMillis + d) % 4294967296) r).1
      = fmtDate (s.syncedTime.addSeconds (d / 1000)) ++ "." ++ pad 3 (d % 1000) := by
  simp only [PrecisionTime.getTimestamp, hinit]
  have helapsed : ((s.lastSyncMillis + d) % 4294967296 % 4294967296 + 4294967296
      - s.lastSyncMillis % 4294967296) % 4294967296 = d := by omega
  simp only [helapsed, Bool.true_eq_false, if_false]

/-- Success of the detection loop implies a falling edge was observed in the
scanned pin trace. -/
theorem beginLoop_true_falling :
    ∀ (samples : List Sample) (timeout : Nat) (rtcNow : DateTime)
      (tFallback : Nat) (lastState : Bool) (cnt : Nat) (s : PrecisionTime),
    (PrecisionTime.beginLoop timeout rtcNow tFallback samples lastState cnt s).2 = true →
    hasFalling lastState (samples.map Sample.level) = true := by
  intro samples
  induction samples with
  | nil =>
    intro timeout rtcNow tFallback lastState cnt s h
    simp [PrecisionTime.beginLoop] at h
  | cons smp rest ih =>
    intro timeout rtcNow tFallback lastState cnt s h
    simp only [PrecisionTime.beginLoop] at h
    by_cases hg : smp.tGuard % 4294967296 < timeout ∧ cnt < 2
    · rw [if_pos hg] at h
      by_cases hne : smp.level ≠ lastState
      · rw [if_pos hne] at h
        by_cases hfall : lastState = true ∧ smp.level = false
        · simp [hasFalling, hfall.1, hfall.2]
        · rw [if_neg hfall] at h
          have hr := ih _ _ _ _ _ _ h
          simp [hasFalling, hr]
      · rw [if_neg hne] at h
        simp only [ne_eq, not_not] at hne
        have hr := ih _ _ _ _ _ _ h
        simp [hasFalling, hne, hr]
    · rw [if_neg hg] at h
      simp at h

/-- A pin trace stuck at the initial level drives the detection loop to the
polling fallback commit. -/
theorem beginLoop_const (timeout : Nat) (rtcNow : DateTime) (tFallback : Nat) :
    ∀ (samples : List Sample) (lastState : Bool) (cnt : Nat) (s : PrecisionTime),
    (∀ smp ∈ samples, smp.level = lastState) →
    PrecisionTime.beginLoop timeout rtcNow tFallback samples lastState cnt s
      = (PrecisionTime.fallbackCommit rtcNow tFallback s, false) := by
  intro samples
  induction samples with
  | nil => intro lastState cnt s h; rfl
  | cons smp rest ih =>
    intro lastState cnt s h
    have hl : smp.level = lastState := h smp (by simp)
    simp only [PrecisionTime.beginLoop]
    by_cases hg : smp.tGuard % 4294967296 < timeout ∧ cnt < 2
    · rw [if_pos hg, if_neg (by simp [hl])]
      exact ih lastState cnt s (fun x hx => h x (by simp [hx]))
    · rw [if_neg hg]

/-- C1 counterexample: with the pin initially reading HIGH, a trace containing
a single transition (HIGH→LOW at tick 10, well before the 2500ms deadline)
makes `begin()` return success, although only one logic-level transition —
not a full high→low→high cycle — occurred. -/
theorem claim1_counterexample :
    (PrecisionTime.initialState.begin 0 true [⟨10, false, 12⟩]
      ⟨24, 1, 1, 0, 0, 0⟩ 20).2 = true
    ∧ countTransitions true ([Sample.mk 10 false 12].map Sample.level) = 1 := by
  decide

/-- C1 (amended): `begin()` returns success only if a falling (HIGH→LOW)
transition is observed in the sampled pin trace before the deadline; when the
pin initially reads LOW this takes two transitions (the rise and then the
fall), but when it initially reads HIGH a single falling transition
suffices.  A stuck pin, having no transitions, never yields success. -/
theorem claim1_success_requires_falling_edge
    (s : PrecisionTime) (startWait : Nat) (initLevel : Bool)
    (samples : List Sample) (rtcNow : DateTime) (tFallback : Nat)
    (h : (s.begin startWait initLevel samples rtcNow tFallback).2 = true) :
    hasFalling initLevel (samples.map Sample.level) = true :=
  beginLoop_true_falling samples _ rtcNow tFallback initLevel 0 s h

/-- C1 witness: a LOW-starting trace that rises then falls yields success,
and the amended theorem applies to it. -/
theorem claim1_witness :
    (PrecisionTime.initialState.begin 0 false [⟨10, true, 12⟩, ⟨11, false, 13⟩]
      ⟨24, 1, 1, 0, 0, 0⟩ 20).2 = true
    ∧ hasFalling false
        ([Sample.mk 10 true 12, Sample.mk 11 false 13].map Sample.level) = true :=
  ⟨by decide,
   claim1_success_requires_falling_edge PrecisionTime.initialState 0 false
     [⟨10, true, 12⟩, ⟨11, false, 13⟩] ⟨24, 1, 1, 0, 0, 0⟩ 20 (by decide)⟩

/-- C4: in polling mode (`usingSqw = false`, initialized), every `update()`
performs exactly one calendar read; it commits `{lastSyncMillis := tick,
syncedTime := read, lastSecond := read.ss}` exactly when the read's seconds
field differs from `lastSecond`, and changes nothing at all otherwise. -/
theorem claim4_polling_update (s : PrecisionTime) (tick : Nat) (r : DateTime)
    (hpoll : s.usingSqw = false) (hinit : s.initialized = true) :
    (s.update tick r).2 = 1
    ∧ (r.ss ≠ s.lastSecond →
        (s.update tick r).1
          = { s with lastSecond := r.ss, syncedTime := r,
                     lastSyncMillis := tick % 4294967296 })
    ∧ (r.ss = s.lastSecond → (s.update tick r).1 = s) := by
  unfold PrecisionTime.update
  rw [if_neg (by simp [hpoll]), if_pos (by simp [hpoll, hinit])]
  refine ⟨?_, fun hne => ?_, fun heq => ?_⟩
  · by_cases hss : r.ss ≠ s.lastSecond
    · rw [if_pos hss]
    · rw [if_neg hss]
  · rw [if_pos hne]
  · rw [if_neg (by simp [heq])]

/-- C4 witness: a concrete polling-mode state where a rollover (seconds 5→6)
commits the new reference and an unchanged read leaves the state intact. -/
theorem claim4_witness :
    (⟨false, 0, ⟨24, 1, 1, 0, 0, 5⟩, 100, true, false, 5⟩ : PrecisionTime).usingSqw = false
    ∧ ((⟨false, 0, ⟨24, 1, 1, 0, 0, 5⟩, 100, true, false, 5⟩ : PrecisionTime).update 2105
        ⟨24, 1, 1, 0, 0, 6⟩).2 = 1 := by
  have h := claim4_polling_update
    ⟨false, 0, ⟨24, 1, 1, 0, 0, 5⟩, 100, true, false, 5⟩ 2105 ⟨24, 1, 1, 0, 0, 6⟩ rfl rfl
  exact ⟨rfl, h.1⟩

/-- C7: neither `update()` (in any branch) nor the edge handler ever changes
the mode pair (`isInitialized`, `isUsingSqw`); the materializers return
values without touching state by construction, so once `begin()` commits a
mode it is fixed. -/
theorem claim7_mode_immutable (s : PrecisionTime) (tick e : Nat) (r : DateTime) :
    ((s.update tick r).1.isInitialized = s.isInitialized)
    ∧ ((s.update tick r).1.isUsingSqw = s.isUsingSqw)
    ∧ ((s.onSqwPulse e).isInitialized = s.isInitialized)
    ∧ ((s.onSqwPulse e).isUsingSqw = s.isUsingSqw) := by
  unfold PrecisionTime.update PrecisionTime.onSqwPulse PrecisionTime.isInitialized
    PrecisionTime.isUsingSqw
  refine ⟨?_, ?_, rfl, rfl⟩ <;> split_ifs <;> rfl

/-- C8: with no sync ever committed (`initialized = false`), `getTimestamp`
returns the raw calendar read formatted with the literal `".000"`
millisecond suffix, and `getUnixMillis` returns the read's epoch seconds
times 1000 — an exact multiple of 1000. -/
theorem claim8_uninitialized (s : PrecisionTime) (tick : Nat) (r : DateTime)
    (h : s.initialized = false) :
    (s.getTimestamp tick r).1 = fmtDate r ++ ".000"
    ∧ (s.getUnixMillis tick r).1 = (r.unixtime % 4294967296) * 1000
    ∧ (s.getUnixMillis tick r).1 % 1000 = 0 := by
  simp only [PrecisionTime.getTimestamp, PrecisionTime.getUnixMillis, h, if_pos]
  exact ⟨trivial, trivial, Nat.mul_mod_left _ _⟩

/-- C8 witness: the freshly constructed state at a concrete calendar read. -/
theorem claim8_witness :
    PrecisionTime.initialState.initialized = false
    ∧ ((PrecisionTime.initialState.getUnixMillis 7 ⟨24, 3, 5, 7, 8, 9⟩).1
        = (DateTime.unixtime ⟨24, 3, 5, 7, 8, 9⟩ % 4294967296) * 1000
      ∧ (PrecisionTime.initialState.getUnixMillis 7 ⟨24, 3, 5, 7, 8, 9⟩).1 % 1000 = 0) := by
  have h := claim8_uninitialized PrecisionTime.initialState 7 ⟨24, 3, 5, 7, 8, 9⟩ rfl
  exact ⟨rfl, h.2.1, h.2.2⟩

/-- C9 counterexample: in the uninitialized state the materializers DO
perform a calendar read and depend on it — two consecutive `getTimestamp()`
calls with the same tick and no commit, between which the calendar advances
by one second, return different strings, and the read count is 1, not 0. -/
theorem claim9_counterexample :
    ((PrecisionTime.initialState.getTimestamp 0 ⟨24, 1, 1, 0, 0, 0⟩).1
      ≠ (PrecisionTime.initialState.getTimestamp 0 ⟨24, 1, 1, 0, 0, 1⟩).1)
    ∧ (PrecisionTime.initialState.getTimestamp 0 ⟨24, 1, 1, 0, 0, 0⟩).2 = 1 := by
  decide

/-- C9 (amended): once initialized, `getTimestamp`/`getUnixMillis` read only
the clock reference and the tick: they perform zero calendar reads, their
results are independent of the calendar state, and repeated calls with the
same tick and no intervening commit return identical output. -/
theorem claim9_initialized_pure (s : PrecisionTime) (t : Nat) (r1 r2 : DateTime)
    (h : s.initialized = true) :
    s.getTimestamp t r1 = s.getTimestamp t r2
    ∧ s.getUnixMillis t r1 = s.getUnixMillis t r2
    ∧ (s.getTimestamp t r1).2 = 0
    ∧ (s.getUnixMillis t r1).2 = 0 := by
  simp only [PrecisionTime.getTimestamp, PrecisionTime.getUnixMillis, h,
    Bool.true_eq_false, if_false]
  exact ⟨trivial, trivial, trivial, trivial⟩

/-- C9 witness: a concrete initialized state, two different calendar values. -/
theorem claim9_witness :
    (⟨false, 0, ⟨24, 1, 1, 0, 0, 5⟩, 100, true, false, 5⟩ : PrecisionTime).initialized = true
    ∧ (⟨false, 0, ⟨24, 1, 1, 0, 0, 5⟩, 100, true, false, 5⟩ : PrecisionTime).getUnixMillis 321
        ⟨24, 1, 1, 0, 0, 6⟩
      = (⟨false, 0, ⟨24, 1, 1, 0, 0, 5⟩, 100, true, false, 5⟩ : PrecisionTime).getUnixMillis 321
        ⟨25, 2, 3, 4, 5, 6⟩ := by
  have h := claim9_initialized_pure
    ⟨false, 0, ⟨24, 1, 1, 0, 0, 5⟩, 100, true, false, 5⟩ 321
    ⟨24, 1, 1, 0, 0, 6⟩ ⟨25, 2, 3, 4, 5, 6⟩ rfl
  exact ⟨rfl, h.2.1⟩

/-- C10: `update()` before any initialization (constructor state: neither
initialized nor in SQW mode), or in interrupt mode with no pending edge, is
a complete no-op: zero calendar reads and a bit-for-bit unchanged state. -/
theorem claim10_noop (s : PrecisionTime) (tick : Nat) (r : DateTime)
    (h : (s.initialized = false ∧ s.usingSqw = false)
        ∨ (s.usingSqw = true ∧ s.syncPending = false)) :
    s.update tick r = (s, 0) := by
  unfold PrecisionTime.update
  rcases h with ⟨h1, h2⟩ | ⟨h1, h2⟩
  · rw [if_neg (by simp [h2]), if_neg (by simp [h1])]
  · rw [if_neg (by simp [h2]), if_neg (by simp [h1])]

/-- C10 witness: the constructor state and an interrupt-mode state with no
pending edge are both left untouched. -/
theorem claim10_witness :
    (PrecisionTime.initialState.initialized = false
      ∧ PrecisionTime.initialState.usingSqw = false)
    ∧ PrecisionTime.initialState.update 5 ⟨24, 1, 1, 0, 0, 0⟩
        = (PrecisionTime.initialState, 0) :=
  ⟨⟨rfl, rfl⟩, claim10_noop PrecisionTime.initialState 5 ⟨24, 1, 1, 0, 0, 0⟩
    (Or.inl ⟨rfl, rfl⟩)⟩

/-- C2: for every initialized state and tick `t ≥ syncInstant` (both 32-bit),
`getUnixMillis` evaluates to `(baseWallTime.unixtime + wholeSeconds) * 1000
+ ms` with `ms = (t - syncInstant) mod 1000` and `wholeSeconds =
(t - syncInstant) div 1000`; `getTimestamp` formats the calendar sum of
`baseWallTime` and `wholeSeconds` with the `ms` remainder; the calendar sum
adds exactly `wholeSeconds` epoch seconds (cascading through field
boundaries); and at the boundaries `elapsed = 999` gives `ms = 999,
wholeSeconds = 0` while `elapsed = 1000` gives `ms = 0, wholeSeconds = 1`. -/
theorem claim2_materializer_formula (s : PrecisionTime) (t : Nat) (r : DateTime)
    (hinit : s.initialized = true) (hsync : s.lastSyncMillis < 4294967296)
    (hle : s.lastSyncMillis ≤ t) (ht : t < 4294967296)
    (hov : s.syncedTime.unixtime + (t - s.lastSyncMillis) / 1000 < 4294967296) :
    (s.getUnixMillis t r).1
      = (s.syncedTime.unixtime + (t - s.lastSyncMillis) / 1000) * 1000
        + (t - s.lastSyncMillis) % 1000
    ∧ (s.getTimestamp t r).1
      = fmtDate (s.syncedTime.addSeconds ((t - s.lastSyncMillis) / 1000)) ++ "."
        ++ pad 3 ((t - s.lastSyncMillis) % 1000)
    ∧ (s.syncedTime.addSeconds ((t - s.lastSyncMillis) / 1000)).unixtime
      = s.syncedTime.unixtime + (t - s.lastSyncMillis) / 1000
    ∧ (t - s.lastSyncMillis = 999 →
        (s.getUnixMillis t r).1 = s.syncedTime.unixtime * 1000 + 999)
    ∧ (t - s.lastSyncMillis = 1000 →
        (s.getUnixMillis t r).1 = (s.syncedTime.unixtime + 1) * 1000) := by
  have h1 := getUnixMillis_elapsed s (t - s.lastSyncMillis) r hinit (by omega) hov
  have h2 := getTimestamp_elapsed s (t - s.lastSyncMillis) r hinit (by omega)
  have hteq : (s.lastSyncMillis + (t - s.lastSyncMillis)) % 4294967296 = t := by omega
  rw [hteq] at h1 h2
  have h3 := addSeconds_unixtime s.syncedTime ((t - s.lastSyncMillis) / 1000) hov
  refine ⟨h1, h2, h3, fun h999 => ?_, fun h1000 => ?_⟩
  · rw [h999] at h1; omega
  · rw [h1000] at h1; omega

/-- C2 witness: sync at tick 100, read at tick 1099 — 999 elapsed
milliseconds — yields exactly base epoch-milliseconds plus 999. -/
theorem claim2_witness :
    (⟨false, 0, ⟨24, 1, 1, 0, 0, 0⟩, 100, true, false, 5⟩ : PrecisionTime).lastSyncMillis ≤ 1099
    ∧ ((⟨false, 0, ⟨24, 1, 1, 0, 0, 0⟩, 100, true, false, 5⟩ : PrecisionTime).getUnixMillis
        1099 ⟨25, 6, 7, 8, 9, 10⟩).1
      = (⟨false, 0, ⟨24, 1, 1, 0, 0, 0⟩, 100, true, false, 5⟩ : PrecisionTime).syncedTime.unixtime
          * 1000 + 999 :=
  ⟨by decide,
   (claim2_materializer_formula
      ⟨false, 0, ⟨24, 1, 1, 0, 0, 0⟩, 100, true, false, 5⟩ 1099 ⟨25, 6, 7, 8, 9, 10⟩
      rfl (by decide) (by decide) (by decide) (by decide)).2.2.2.1 (by decide)⟩

/-- C3 counterexample: an interrupt-mode edge at tick 1000 drained by
`update()` with the calendar reading 2024-01-01 00:00:10 (seconds field 10)
makes the immediately following `getUnixMillis()` return that reading's
epoch-milliseconds — not the literal 10000 the claim states. -/
theorem claim3_counterexample :
    ((((⟨false, 0, ⟨24, 1, 1, 0, 0, 9⟩, 500, true, true, 255⟩ : PrecisionTime).onSqwPulse
        1000).update 1000 ⟨24, 1, 1, 0, 0, 10⟩).1.getUnixMillis 1000
        ⟨24, 1, 1, 0, 0, 10⟩).1 ≠ 10000 := by
  decide

/-- C3 (amended): in interrupt mode, `update()` draining pending edges
commits `syncInstant` to the tick captured at the most recent edge
(last-edge-wins) and `baseWallTime` from the fresh calendar read, performing
one read; `getUnixMillis()` evaluated at the committed tick then equals the
read's epoch-milliseconds exactly (zero sub-second offset), so readings with
seconds fields 10, 11, 12 give values spaced exactly 1000 ms apart. -/
theorem claim3_interrupt_commit (s : PrecisionTime) (e1 e2 t : Nat) (r rq : DateTime)
    (husing : s.usingSqw = true) (hinit : s.initialized = true)
    (hu : r.unixtime < 4294967296) :
    (((s.onSqwPulse e1).onSqwPulse e2).update t r).1.lastSyncMillis = e2 % 4294967296
    ∧ (((s.onSqwPulse e1).onSqwPulse e2).update t r).1.syncedTime = r
    ∧ (((s.onSqwPulse e1).onSqwPulse e2).update t r).2 = 1
    ∧ ((((s.onSqwPulse e1).onSqwPulse e2).update t r).1.getUnixMillis
        (e2 % 4294967296) rq).1 = r.unixtime * 1000 := by
  have hswitch : (((s.onSqwPulse e1).onSqwPulse e2).update t r)
      = ({ s with syncPending := false, syncMillis := e2 % 4294967296,
                  syncedTime := r, lastSyncMillis := e2 % 4294967296 }, 1) := by
    unfold PrecisionTime.onSqwPulse PrecisionTime.update
    rw [if_pos (by simp [husing])]
  rw [hswitch]
  refine ⟨rfl, rfl, rfl, ?_⟩
  have hres := getUnixMillis_elapsed
    { s with syncPending := false, syncMillis := e2 % 4294967296,
             syncedTime := r, lastSyncMillis := e2 % 4294967296 }
    0 rq hinit (by omega) (by simpa using hu)
  simp only [Nat.add_zero] at hres
  have hmm : e2 % 4294967296 % 4294967296 = e2 % 4294967296 := by omega
  rw [hmm] at hres
  simpa using hres

/-- C3 witness: the last of edges at ticks 2000 and 3005 pending together
wins the commit, and `getUnixMillis` right after the drain equals the
calendar reading's (seconds field 12) epoch-milliseconds exactly. -/
theorem claim3_witness :
    (⟨false, 0, ⟨24, 1, 1, 0, 0, 9⟩, 500, true, true, 255⟩ : PrecisionTime).usingSqw = true
    ∧ ((((⟨false, 0, ⟨24, 1, 1, 0, 0, 9⟩, 500, true, true, 255⟩ : PrecisionTime).onSqwPulse
          2000).onSqwPulse 3005).update 3100 ⟨24, 1, 1, 0, 0, 12⟩).1.lastSyncMillis
        = 3005 % 4294967296
    ∧ (((((⟨false, 0, ⟨24, 1, 1, 0, 0, 9⟩, 500, true, true, 255⟩ :
          PrecisionTime).onSqwPulse 2000).onSqwPulse 3005).update 3100
          ⟨24, 1, 1, 0, 0, 12⟩).1.getUnixMillis (3005 % 4294967296)
          ⟨24, 1, 1, 0, 0, 12⟩).1
        = DateTime.unixtime ⟨24, 1, 1, 0, 0, 12⟩ * 1000 := by
  have h := claim3_interrupt_commit
    ⟨false, 0, ⟨24, 1, 1, 0, 0, 9⟩, 500, true, true, 255⟩ 2000 3005 3100
    ⟨24, 1, 1, 0, 0, 12⟩ ⟨24, 1, 1, 0, 0, 12⟩ rfl rfl (by decide)
  exact ⟨rfl, h.1, h.2.2.2⟩

/-- C5: across tick-counter wraparound — sync committed near the maximum
tick value, current tick a small value past zero — the unsigned 32-bit
subtraction recovers the true small difference `d`, so milliseconds and
whole seconds remain correct. -/
theorem claim5_wraparound (s : PrecisionTime) (d : Nat) (r : DateTime)
    (hinit : s.initialized = true) (hsync : s.lastSyncMillis < 4294967296)
    (hwrap : 4294967296 ≤ s.lastSyncMillis + d) (hd : d < 4294967296)
    (hov : s.syncedTime.unixtime + d / 1000 < 4294967296) :
    (s.getUnixMillis (s.lastSyncMillis + d - 4294967296) r).1
      = (s.syncedTime.unixtime + d / 1000) * 1000 + d % 1000 := by
  have htick : s.lastSyncMillis + d - 4294967296
      = (s.lastSyncMillis + d) % 4294967296 := by omega
  rw [htick]
  exact getUnixMillis_elapsed s d r hinit hd hov

/-- C5 witness: sync at tick 4294967000, wrap to tick 1204 (1500 true
elapsed milliseconds) — one whole second plus 500 ms. -/
theorem claim5_witness :
    4294967296 ≤ (⟨false, 0, ⟨24, 1, 1, 0, 0, 0⟩, 4294967000, true, false, 5⟩ :
        PrecisionTime).lastSyncMillis + 1500
    ∧ ((⟨false, 0, ⟨24, 1, 1, 0, 0, 0⟩, 4294967000, true, false, 5⟩ :
        PrecisionTime).getUnixMillis
        ((⟨false, 0, ⟨24, 1, 1, 0, 0, 0⟩, 4294967000, true, false, 5⟩ :
          PrecisionTime).lastSyncMillis + 1500 - 4294967296) ⟨25, 6, 7, 8, 9, 10⟩).1
      = ((⟨false, 0, ⟨24, 1, 1, 0, 0, 0⟩, 4294967000, true, false, 5⟩ :
          PrecisionTime).syncedTime.unixtime + 1500 / 1000) * 1000 + 1500 % 1000 :=
  ⟨by decide,
   claim5_wraparound ⟨false, 0, ⟨24, 1, 1, 0, 0, 0⟩, 4294967000, true, false, 5⟩
     1500 ⟨25, 6, 7, 8, 9, 10⟩ rfl (by decide) (by decide) (by decide) (by decide)⟩

/-- C6: when the pin trace shows no edge before the deadline (a stuck pin),
`begin()` returns `false` — degraded precision, distinct from failure — but
still commits a clock reference anchored to the single calendar read and the
current tick, enters polling mode with `isInitialized = true`, and after a
first polled second-rollover commit, `getUnixMillis` advances correctly from
the new reference. -/
theorem claim6_fallback (s : PrecisionTime) (startWait : Nat) (initLevel : Bool)
    (samples : List Sample) (rtcNow : DateTime) (tFallback t1 d : Nat)
    (r1 rq : DateTime)
    (hconst : ∀ smp ∈ samples, smp.level = initLevel)
    (hroll : r1.ss ≠ rtcNow.ss) (hd : d < 4294967296)
    (hov : r1.unixtime + d / 1000 < 4294967296) :
    (s.begin startWait initLevel samples rtcNow tFallback).2 = false
    ∧ (s.begin startWait initLevel samples rtcNow tFallback).1
        = PrecisionTime.fallbackCommit rtcNow tFallback s
    ∧ (s.begin startWait initLevel samples rtcNow tFallback).1.isInitialized = true
    ∧ (s.begin startWait initLevel samples rtcNow tFallback).1.isUsingSqw = false
    ∧ (s.begin startWait initLevel samples rtcNow tFallback).1.syncedTime = rtcNow
    ∧ (s.begin startWait initLevel samples rtcNow tFallback).1.lastSyncMillis
        = tFallback % 4294967296
    ∧ ((PrecisionTime.fallbackCommit rtcNow tFallback s).update t1 r1).2 = 1
    ∧ (((PrecisionTime.fallbackCommit rtcNow tFallback s).update t1 r1).1.getUnixMillis
        ((t1 + d) % 4294967296) rq).1
      = (r1.unixtime + d / 1000) * 1000 + d % 1000 := by
  have hbegin : s.begin startWait initLevel samples rtcNow tFallback
      = (PrecisionTime.fallbackCommit rtcNow tFallback s, false) := by
    unfold PrecisionTime.begin
    exact beginLoop_const _ rtcNow tFallback samples initLevel 0 s hconst
  have hupd : (PrecisionTime.fallbackCommit rtcNow tFallback s).update t1 r1
      = (⟨s.syncPending, s.syncMillis, r1, t1 % 4294967296, true, false, r1.ss⟩, 1) := by
    unfold PrecisionTime.fallbackCommit PrecisionTime.update
    rw [if_neg (by simp), if_pos (by simp), if_pos (by simpa using hroll)]
  have hval := getUnixMillis_elapsed
    ⟨s.syncPending, s.syncMillis, r1, t1 % 4294967296, true, false, r1.ss⟩ d rq rfl hd
    (by simpa using hov)
  have htk : (((⟨s.syncPending, s.syncMillis, r1, t1 % 4294967296, true, false,
      r1.ss⟩ : PrecisionTime).lastSyncMillis + d) % 4294967296)
      = (t1 + d) % 4294967296 := by
    show (t1 % 4294967296 + d) % 4294967296 = _
    omega
  rw [htk] at hval
  rw [hbegin, hupd]
  exact ⟨rfl, rfl, rfl, rfl, rfl, rfl, rfl, by simpa using hval⟩

/-- C6 witness: a pin stuck HIGH for the whole window, fallback anchored at
tick 2600 to a 00:00:00 read; a polled rollover to 00:00:01 at tick 5000
then yields correct advancing values 1500 ms later. -/
theorem claim6_witness :
    (∀ smp ∈ [Sample.mk 100 true 0, Sample.mk 200 true 0], smp.level = true)
    ∧ (PrecisionTime.initialState.begin 0 true [⟨100, true, 0⟩, ⟨200, true, 0⟩]
        ⟨24, 1, 1, 0, 0, 0⟩ 2600).2 = false
    ∧ (((PrecisionTime.fallbackCommit ⟨24, 1, 1, 0, 0, 0⟩ 2600
          PrecisionTime.initialState).update 5000 ⟨24, 1, 1, 0, 0, 1⟩).1.getUnixMillis
        ((5000 + 1500) % 4294967296) ⟨24, 1, 1, 0, 0, 1⟩).1
      = (DateTime.unixtime ⟨24, 1, 1, 0, 0, 1⟩ + 1500 / 1000) * 1000 + 1500 % 1000 := by
  have h := claim6_fallback PrecisionTime.initialState 0 true
    [⟨100, true, 0⟩, ⟨200, true, 0⟩] ⟨24, 1, 1, 0, 0, 0⟩ 2600 5000 1500
    ⟨24, 1, 1, 0, 0, 1⟩ ⟨24, 1, 1, 0, 0, 1⟩ (by decide) (by decide) (by decide)
    (by decide)
  exact ⟨by decide, h.1, h.2.2.2.2.2.2.2⟩
